import Mathlib

/-!
Verification of the slice-geometry resolution engine of the RSLMTestPattern
repository, as implemented by the class named ResolumeXMLParser in
src/utils/resolume-parser.ts (the current variant of that file).

The embedding translates that code into Lean:

* JavaScript numbers are modelled by JSNum: a finite rational, a signed
  infinity, or NaN.  The only places where non-finite values can arise in the
  code are the scale division (compositionSize / internalResolution) and the
  multiplications and roundings derived from it, so vertex coordinates stay
  plain rationals and JSNum enters at the scale computation, exactly as in
  the source.  Floating-point rounding error is not modelled; no statement
  below depends on it.
* The output of the fast-xml-parser library is modelled by Raw* structures
  that record exactly the presence/absence distinctions the code branches
  on.  Attribute values that the code reads as numbers are Option of a
  rational, none standing for an absent or unparsable attribute
  (parseFloat of it is NaN, so the "or zero" fallback applies).  The
  single-versus-array encoding normalisation collapses to plain lists.
* Date.now() and Math.random(), used for the fallback slice id, are modelled
  by an explicit entropy argument (Nat -> String), indexed by slice position.
* A thrown exception is modelled by Option none at the granularity at which
  the code catches it: parseSlice returns none where the method throws, and
  the top-level parse returns none where the outer catch returns null.
-/

namespace RSLM

/-- A JavaScript number: a finite rational, a signed infinity
(`inf true` is positive infinity), or NaN. -/
inductive JSNum where
  | fin (q : ℚ)
  | inf (pos : Bool)
  | nan
deriving DecidableEq

/-- Whether a JSNum is a finite number (neither NaN nor an infinity). -/
def JSNum.isFinite : JSNum → Bool
  | .fin _ => true
  | _ => false

/-- JavaScript division of two finite numbers: `a / 0` is NaN when `a = 0`
and a signed infinity otherwise (the denominators produced by the code are
the inferred internal resolution, which is never negative zero). -/
def jsDiv (a b : ℚ) : JSNum :=
  if b = 0 then (if a = 0 then JSNum.nan else JSNum.inf (decide (0 < a)))
  else JSNum.fin (a / b)

/-- JavaScript multiplication of a finite number by a JSNum:
`0 * Infinity` is NaN, a nonzero finite times an infinity is an infinity
with the product sign, and NaN propagates. -/
def jsMulF (q : ℚ) : JSNum → JSNum
  | .fin r => .fin (q * r)
  | .inf p => if q = 0 then .nan else .inf (p == decide (0 < q))
  | .nan => .nan

/-- JavaScript Math.round: for finite x it is `floor (x + 1/2)` (half-up,
towards positive infinity); infinities and NaN are returned unchanged. -/
def jsRound : JSNum → JSNum
  | .fin q => .fin ((⌊q + 1/2⌋ : ℤ) : ℚ)
  | .inf p => .inf p
  | .nan => .nan

/-- The JavaScript comparison `x <= c` for a finite literal c: false whenever
x is NaN, and decided by sign for infinities. -/
def jsLe (x : JSNum) (c : ℚ) : Bool :=
  match x with
  | .fin q => decide (q ≤ c)
  | .inf p => !p
  | .nan => false

/-- A 2D point produced by parseRect (both coordinates are finite). -/
structure Pt where
  x : ℚ
  y : ℚ
deriving DecidableEq

/-- A raw vertex element `<v x="..." y="...">`: each attribute is either a
parsable number or absent/unparsable (in which case `parseFloat(...) || 0`
yields 0). -/
structure RawVertex where
  vx : Option ℚ
  vy : Option ℚ
deriving DecidableEq

/-- parseRect (resolume-parser.ts lines 216-224): absent container (or absent
`v` member) gives the empty list; otherwise every vertex is coerced with a
0 default per coordinate.  The single-versus-array normalisation of `v` is
already collapsed in the raw model. -/
def parseRect : Option (List RawVertex) → List Pt
  | none => []
  | some vs => vs.map (fun v => ⟨v.vx.getD 0, v.vy.getD 0⟩)

/-- A raw `<Slice>` element: optional uniqueId attribute, the nested Params
groups (each group a list of (name attribute, value attribute) pairs), and
the two optional rect containers. -/
structure RawSlice where
  uniqueId : Option String
  params : List (List (String × Option String))
  outputRect : Option (List RawVertex)
  inputRect : Option (List RawVertex)
deriving DecidableEq

/-- The view mode argument of parse (the strings input and output). -/
inductive ViewMode where
  | input
  | output
deriving DecidableEq

/-- findParam (lines 226-241): scan the Params groups in order and return
the value attribute of the first Param whose name attribute matches. -/
def findParam : List (List (String × Option String)) → String → Option (Option String)
  | [], _ => none
  | g :: rest, pname =>
    match g.find? (fun p => p.1 == pname) with
    | some p => some p.2
    | none => findParam rest pname

/-- `Math.min(...values)` over a list; the empty case (+Infinity in
JavaScript) is unreachable at every call site because it is guarded by the
length check of line 172, so it is given an arbitrary value. -/
def listMin : List ℚ → ℚ
  | [] => 0
  | a :: l => l.foldl min a

/-- `Math.max(...values)` over a list; empty case unreachable as in listMin. -/
def listMax : List ℚ → ℚ
  | [] => 0
  | a :: l => l.foldl max a

/-- The slice id of line 140: the uniqueId attribute stringified when present
and truthy, else the string built from Date.now() and Math.random(),
modelled by the entropy value for this slice position. -/
def sliceIdOf (r : RawSlice) (eid : String) : String :=
  match r.uniqueId with
  | some s => if s = "" then "slice_" ++ eid else s
  | none => "slice_" ++ eid

/-- The slice name of lines 143-144: the value of the Name param, with the
default used when the param is absent or its value falsy. -/
def sliceNameOf (r : RawSlice) : String :=
  match findParam r.params "Name" with
  | some (some v) => if v = "" then "Unnamed Slice" else v
  | _ => "Unnamed Slice"

/-- The record returned by parseSlice (lines 204-213).  The four geometry
fields are JSNum because Math.round is applied to scaled values that can be
non-finite when the scale factors are. -/
structure SliceData where
  id : String
  name : String
  width : JSNum
  height : JSNum
  x : JSNum
  y : JSNum
  inputRect : List Pt
  outputRect : List Pt
deriving DecidableEq

/-- parseSlice (lines 139-214).  Returns none where the method throws: when
the active rect has fewer than 4 points (line 174) and when the scaled
width or height compares `<= 0` (line 201). -/
def parseSlice (slice : RawSlice) (viewMode : ViewMode) (scaleX scaleY : JSNum)
    (eid : String) : Option SliceData :=
  let id := sliceIdOf slice eid
  let name := sliceNameOf slice
  let outputRect := parseRect slice.outputRect
  let inputRect := parseRect slice.inputRect
  let activeRect := if viewMode = ViewMode.input then inputRect else outputRect
  if activeRect.length < 4 then none
  else
    let minX := listMin (activeRect.map Pt.x)
    let maxX := listMax (activeRect.map Pt.x)
    let minY := listMin (activeRect.map Pt.y)
    let maxY := listMax (activeRect.map Pt.y)
    let width := jsMulF (maxX - minX) scaleX
    let height := jsMulF (maxY - minY) scaleY
    let x := jsMulF minX scaleX
    let y := jsMulF minY scaleY
    if jsLe width 0 || jsLe height 0 then none
    else some {
      id := id
      name := name
      width := jsRound width
      height := jsRound height
      x := jsRound x
      y := jsRound y
      inputRect := inputRect
      outputRect := outputRect }

/-- The bounding-box scan of lines 85-94: fold `Math.max` over the x and y
coordinates of every OutputRect vertex of every slice, starting from
`maxX = 0, maxY = 0`; the result is the inferred internal resolution. -/
def internalResolutionOf (sliceArray : List RawSlice) : ℚ × ℚ :=
  sliceArray.foldl
    (fun acc s => (parseRect s.outputRect).foldl
      (fun a v => (max a.1 v.x, max a.2 v.y)) acc)
    (0, 0)

/-- The scale factors of lines 98-99: componentwise division of the
composition size by the internal resolution, with no zero guard. -/
def scaleOf (compositionSize internal : ℚ × ℚ) : JSNum × JSNum :=
  (jsDiv compositionSize.1 internal.1, jsDiv compositionSize.2 internal.2)

/-- The JavaScript `v || d` fallback for an optional numeric attribute:
absent, unparsable and zero values all fall back to the default. -/
def jsOrNum (v : Option ℚ) (d : ℚ) : ℚ :=
  match v with
  | some q => if q = 0 then d else q
  | none => d

/-- The JavaScript `v || d` fallback for an optional string attribute:
absent and empty values fall back to the default. -/
def jsOrStr (v : Option String) (d : String) : String :=
  match v with
  | some s => if s = "" then d else s
  | none => d

/-- A raw element carrying width/height attributes (OutputDeviceVirtual or
CurrentCompositionTextureSize). -/
structure RawSize where
  w : Option ℚ
  h : Option ℚ
deriving DecidableEq

/-- The raw versionInfo element. -/
structure RawVersion where
  name : Option String
  major : Option ℚ
  minor : Option ℚ
  micro : Option ℚ
deriving DecidableEq

/-- The first raw Screen element (the code always takes the first of the
screens array).  layers is none when either `layers` or `layers.Slice` is
absent (both lead to the same empty-setup branch). -/
structure RawScreen where
  outputDeviceVirtual : Option RawSize
  layers : Option (List RawSlice)
deriving DecidableEq

/-- The raw ScreenSetup element; screens is none when either `screens` or
`screens.Screen` is absent (both throw the same structural error). -/
structure RawScreenSetup where
  screens : Option RawScreen
  currentCompositionTextureSize : Option RawSize
deriving DecidableEq

/-- The raw XmlState root element. -/
structure RawXmlState where
  name : Option String
  versionInfo : Option RawVersion
  screenSetup : Option RawScreenSetup
deriving DecidableEq

/-- The value returned by the XML parser library for one document: the
XmlState root, when present. -/
structure RawDoc where
  xmlState : Option RawXmlState
deriving DecidableEq

/-- The version record of the returned setup (lines 71-76 and 124-129). -/
structure VersionData where
  name : String
  major : ℚ
  minor : ℚ
  micro : ℚ
deriving DecidableEq

/-- The ResolumeSetup record returned by parse. -/
structure ResolumeSetup where
  name : String
  version : VersionData
  compositionSize : ℚ × ℚ
  slices : List SliceData
deriving DecidableEq

/-- The version extraction shared by both return sites of parse. -/
def versionOf (vi : Option RawVersion) : VersionData :=
  { name := jsOrStr (vi.bind RawVersion.name) "Resolume Arena"
    major := jsOrNum (vi.bind RawVersion.major) 7
    minor := jsOrNum (vi.bind RawVersion.minor) 0
    micro := jsOrNum (vi.bind RawVersion.micro) 0 }

/-- The composition size extraction of lines 45-63: the Virtual Output
Device size when present, else CurrentCompositionTextureSize, else the
1920x1080 default; each attribute falls back through `|| 1920` / `|| 1080`. -/
def compositionSizeOf (screenSetup : RawScreenSetup) (screen : RawScreen) : ℚ × ℚ :=
  match screen.outputDeviceVirtual with
  | some vo => (jsOrNum vo.w 1920, jsOrNum vo.h 1080)
  | none =>
    match screenSetup.currentCompositionTextureSize with
    | some cs => (jsOrNum cs.w 1920, jsOrNum cs.h 1080)
    | none => (1920, 1080)

/-- parse (lines 16-137).  The argument is none when the XML library throws
on the input string; the result is none exactly where the outer catch
returns null (missing XmlState, ScreenSetup or Screen).  Per-slice throws
are caught at lines 113-116 and the slice skipped (filterMap). -/
def parse (doc : Option RawDoc) (viewMode : ViewMode) (entropy : Nat → String) :
    Option ResolumeSetup :=
  match doc with
  | none => none
  | some d =>
    match d.xmlState with
    | none => none
    | some xmlState =>
      match xmlState.screenSetup with
      | none => none
      | some screenSetup =>
        match screenSetup.screens with
        | none => none
        | some screen =>
          let compositionSize := compositionSizeOf screenSetup screen
          let name := jsOrStr xmlState.name "Resolume Setup"
          let version := versionOf xmlState.versionInfo
          match screen.layers with
          | none =>
            some { name := name, version := version
                   compositionSize := compositionSize, slices := [] }
          | some sliceArray =>
            let sc := scaleOf compositionSize (internalResolutionOf sliceArray)
            let slices := sliceArray.enum.filterMap
              (fun p => parseSlice p.2 viewMode sc.1 sc.2 (entropy p.1))
            some { name := name, version := version
                   compositionSize := compositionSize, slices := slices }

/-- The slice array a document reaches line 82 with, when the structural
checks pass and layers are present. -/
def docSliceArray (d : RawDoc) : Option (List RawSlice) :=
  match d.xmlState with
  | none => none
  | some xs =>
    match xs.screenSetup with
    | none => none
    | some ss =>
      match ss.screens with
      | none => none
      | some screen => screen.layers

/-- The scale pair a document reaches line 102 with.  Note that it is a
function of the document alone: the view mode plays no part in it. -/
def docScale (d : RawDoc) : Option (JSNum × JSNum) :=
  match d.xmlState with
  | none => none
  | some xs =>
    match xs.screenSetup with
    | none => none
    | some ss =>
      match ss.screens with
      | none => none
      | some screen =>
        match screen.layers with
        | none => none
        | some sliceArray =>
          some (scaleOf (compositionSizeOf ss screen) (internalResolutionOf sliceArray))

/-- The active rect parseSlice selects at line 169 for a raw slice. -/
def activeRectOf (r : RawSlice) (m : ViewMode) : List Pt :=
  if m = ViewMode.input then parseRect r.inputRect else parseRect r.outputRect

/-- The rect of an emitted slice record that was active for the given mode. -/
def emittedActiveRect (s : SliceData) (m : ViewMode) : List Pt :=
  if m = ViewMode.input then s.inputRect else s.outputRect

/-- The structural failure conditions of the outer try of parse: the XML
library threw, or XmlState, ScreenSetup or the Screen member is missing
(lines 21-23, 29-31, 36-38); exactly these paths reach the catch of lines
133-136 and return null. -/
def structuralFailure (doc : Option RawDoc) : Bool :=
  match doc with
  | none => true
  | some d =>
    match d.xmlState with
    | none => true
    | some xs =>
      match xs.screenSetup with
      | none => true
      | some ss =>
        match ss.screens with
        | none => true
        | some _ => false

/-- The x coordinates of the parsed OutputRect of a raw slice. -/
def outputXs (s : RawSlice) : List ℚ :=
  (parseRect s.outputRect).map Pt.x

/-- The y coordinates of the parsed OutputRect of a raw slice. -/
def outputYs (s : RawSlice) : List ℚ :=
  (parseRect s.outputRect).map Pt.y

/-- Follows the words of the specification (section 3): a quad is valid only
if it has exactly 4 points and its derived width and height are both
positive.  Used to compare the specified resolution inference with the
implemented one. -/
def specQuadValid (l : List Pt) : Bool :=
  l.length == 4
    && decide (listMin (l.map Pt.x) < listMax (l.map Pt.x))
    && decide (listMin (l.map Pt.y) < listMax (l.map Pt.y))

/-- Follows the words of the specification (section 4.4) and of claim C2:
internal resolution as the componentwise maximum of x + width and
y + height over the output-view bounding boxes of the valid slices only
(for a box of a quad, x + width is the maximal vertex x, and y + height
the maximal vertex y). -/
def specInternalResolution (sliceArray : List RawSlice) : ℚ × ℚ :=
  let valid := sliceArray.filter (fun s => specQuadValid (parseRect s.outputRect))
  (valid.foldl (fun a s => max a (listMax (outputXs s))) 0,
   valid.foldl (fun a s => max a (listMax (outputYs s))) 0)

/-- Follows the words of claim C6: rounding half away from zero. -/
def specRoundHalfAwayFromZero (q : ℚ) : ℤ :=
  if 0 ≤ q then ⌊q + 1/2⌋ else -⌊-q + 1/2⌋

/-- A raw vertex with both attributes present. -/
def vtx (a b : ℚ) : RawVertex := ⟨some a, some b⟩

/-- A document with the given slice list and no size declarations, so that
the composition size is the 1920x1080 default. -/
def mkDoc (slices : List RawSlice) : RawDoc :=
  { xmlState := some {
      name := some "t"
      versionInfo := none
      screenSetup := some {
        screens := some { outputDeviceVirtual := none, layers := some slices }
        currentCompositionTextureSize := none } } }

/-- The version record of documents built by mkDoc. -/
def defaultVersion : VersionData :=
  { name := "Resolume Arena", major := 7, minor := 0, micro := 0 }

/-- An anchor slice whose output quad spans exactly the default 1920x1080
composition size, pinning the inferred internal resolution so that both
scale factors are 1. -/
def anchorSlice : RawSlice :=
  { uniqueId := some "A", params := []
    outputRect := some [vtx 0 0, vtx 1920 0, vtx 1920 1080, vtx 0 1080]
    inputRect := none }

/-- The slice record parse emits for anchorSlice at scale 1. -/
def anchorEmitted : SliceData :=
  { id := "A", name := "Unnamed Slice"
    width := JSNum.fin 1920, height := JSNum.fin 1080
    x := JSNum.fin 0, y := JSNum.fin 0
    inputRect := []
    outputRect := [⟨0, 0⟩, ⟨1920, 0⟩, ⟨1920, 1080⟩, ⟨0, 1080⟩] }

/-- C1 input: the output quad is four copies of the origin, so the inferred
internal resolution is 0x0; the input quad is a genuine 10x10 square. -/
def c1Slice : RawSlice :=
  { uniqueId := some "s1", params := []
    outputRect := some [vtx 0 0, vtx 0 0, vtx 0 0, vtx 0 0]
    inputRect := some [vtx 0 0, vtx 10 0, vtx 10 10, vtx 0 10] }

/-- The setup parse returns for the C1 document in input mode: the emitted
slice carries Infinity width/height and NaN position. -/
def c1Setup : ResolumeSetup :=
  { name := "t", version := defaultVersion
    compositionSize := (1920, 1080)
    slices := [{ id := "s1", name := "Unnamed Slice"
                 width := JSNum.inf true, height := JSNum.inf true
                 x := JSNum.nan, y := JSNum.nan
                 inputRect := [⟨0, 0⟩, ⟨10, 0⟩, ⟨10, 10⟩, ⟨0, 10⟩]
                 outputRect := [⟨0, 0⟩, ⟨0, 0⟩, ⟨0, 0⟩, ⟨0, 0⟩] }] }

/-- C2 input: a valid 10x10 output quad together with a slice whose output
rect has a single vertex at (100, 50) and which fails validation. -/
def c2SliceA : RawSlice :=
  { uniqueId := some "A", params := []
    outputRect := some [vtx 0 0, vtx 10 0, vtx 10 10, vtx 0 10]
    inputRect := none }

/-- C2 input: the invalid slice whose lone output vertex still feeds the
implemented inference. -/
def c2SliceB : RawSlice :=
  { uniqueId := some "B", params := []
    outputRect := some [vtx 100 50]
    inputRect := none }

/-- C3 input: a slice whose output quad is 0.4 wide and 0.4 tall, so the
scaled width passes the positivity check but rounds to 0. -/
def c3SliceB : RawSlice :=
  { uniqueId := some "B", params := []
    outputRect := some [vtx 0 0, vtx (2/5) 0, vtx (2/5) (2/5), vtx 0 (2/5)]
    inputRect := none }

/-- The degenerate slice record parse emits for c3SliceB: rounded width and
height are both 0. -/
def c3EmittedB : SliceData :=
  { id := "B", name := "Unnamed Slice"
    width := JSNum.fin 0, height := JSNum.fin 0
    x := JSNum.fin 0, y := JSNum.fin 0
    inputRect := []
    outputRect := [⟨0, 0⟩, ⟨2/5, 0⟩, ⟨2/5, 2/5⟩, ⟨0, 2/5⟩] }

/-- The setup parse returns for the C3 document in output mode. -/
def c3Setup : ResolumeSetup :=
  { name := "t", version := defaultVersion
    compositionSize := (1920, 1080)
    slices := [anchorEmitted, c3EmittedB] }

/-- C4 input: a slice without a uniqueId attribute, so the id falls back to
the Date.now()/Math.random() string. -/
def c4Slice : RawSlice :=
  { uniqueId := none, params := []
    outputRect := some [vtx 0 0, vtx 10 0, vtx 10 10, vtx 0 10]
    inputRect := none }

/-- The setup parse returns for the C4 document under an entropy value e:
the id is the fallback string and the box is scaled by 192 and 108 (the
default composition size divided by the inferred 10x10). -/
def c4Setup (i : String) : ResolumeSetup :=
  { name := "t", version := defaultVersion
    compositionSize := (1920, 1080)
    slices := [{ id := "slice_" ++ i, name := "Unnamed Slice"
                 width := JSNum.fin 1920, height := JSNum.fin 1080
                 x := JSNum.fin 0, y := JSNum.fin 0
                 inputRect := []
                 outputRect := [⟨0, 0⟩, ⟨10, 0⟩, ⟨10, 10⟩, ⟨0, 10⟩] }] }

/-- C4 witness input: the same slice with a uniqueId present. -/
def c4GoodSlice : RawSlice :=
  { uniqueId := some "G", params := []
    outputRect := some [vtx 0 0, vtx 10 0, vtx 10 10, vtx 0 10]
    inputRect := none }

/-- C5 input: an output quad listing five vertices. -/
def c5Slice : RawSlice :=
  { uniqueId := some "P", params := []
    outputRect := some [vtx 0 0, vtx 1920 0, vtx 1920 1080, vtx 0 1080, vtx 960 540]
    inputRect := none }

/-- The slice record parse emits for c5Slice: all five vertices kept. -/
def c5Emitted : SliceData :=
  { id := "P", name := "Unnamed Slice"
    width := JSNum.fin 1920, height := JSNum.fin 1080
    x := JSNum.fin 0, y := JSNum.fin 0
    inputRect := []
    outputRect := [⟨0, 0⟩, ⟨1920, 0⟩, ⟨1920, 1080⟩, ⟨0, 1080⟩, ⟨960, 540⟩] }

/-- The setup parse returns for the C5 document in output mode. -/
def c5Setup : ResolumeSetup :=
  { name := "t", version := defaultVersion
    compositionSize := (1920, 1080)
    slices := [c5Emitted] }

/-- C6 input: a quad whose minimal x is -1.5, where JavaScript Math.round
and rounding half away from zero disagree. -/
def c6SliceB : RawSlice :=
  { uniqueId := some "B", params := []
    outputRect := some [vtx (-3/2) 0, vtx 10 0, vtx 10 10, vtx (-3/2) 10]
    inputRect := none }

/-- The slice record parse emits for c6SliceB at scale 1: x is
Math.round(-1.5) = -1 (half away from zero would give -2). -/
def c6EmittedB : SliceData :=
  { id := "B", name := "Unnamed Slice"
    width := JSNum.fin 12, height := JSNum.fin 10
    x := JSNum.fin (-1), y := JSNum.fin 0
    inputRect := []
    outputRect := [⟨-3/2, 0⟩, ⟨10, 0⟩, ⟨10, 10⟩, ⟨-3/2, 10⟩] }

/-- The setup parse returns for the C6 document in output mode. -/
def c6Setup : ResolumeSetup :=
  { name := "t", version := defaultVersion
    compositionSize := (1920, 1080)
    slices := [anchorEmitted, c6EmittedB] }

/-- C7 input: a slice that is valid in both views (output quad spans the
full 1920x1080 canvas, input quad a 10x10 square). -/
def c7SliceA : RawSlice :=
  { uniqueId := some "A", params := []
    outputRect := some [vtx 0 0, vtx 1920 0, vtx 1920 1080, vtx 0 1080]
    inputRect := some [vtx 0 0, vtx 10 0, vtx 10 10, vtx 0 10] }

/-- C7 input: a slice whose input quad has only three vertices (so it is
dropped in input mode) but whose output quad spans 3840x1080 and therefore
still widens the inferred internal resolution. -/
def c7SliceB : RawSlice :=
  { uniqueId := some "B", params := []
    outputRect := some [vtx 0 0, vtx 3840 0, vtx 3840 1080, vtx 0 1080]
    inputRect := some [vtx 0 0, vtx 5 0, vtx 5 5] }

/-- The record parse emits for c7SliceA in input mode when c7SliceB is
present: the scale is 1920/3840 = 1/2 horizontally. -/
def c7EmittedWithB : SliceData :=
  { id := "A", name := "Unnamed Slice"
    width := JSNum.fin 5, height := JSNum.fin 10
    x := JSNum.fin 0, y := JSNum.fin 0
    inputRect := [⟨0, 0⟩, ⟨10, 0⟩, ⟨10, 10⟩, ⟨0, 10⟩]
    outputRect := [⟨0, 0⟩, ⟨1920, 0⟩, ⟨1920, 1080⟩, ⟨0, 1080⟩] }

/-- The record parse emits for c7SliceA in input mode when it is alone: the
scale is 1 and the box is the full 10x10 square. -/
def c7EmittedAlone : SliceData :=
  { id := "A", name := "Unnamed Slice"
    width := JSNum.fin 10, height := JSNum.fin 10
    x := JSNum.fin 0, y := JSNum.fin 0
    inputRect := [⟨0, 0⟩, ⟨10, 0⟩, ⟨10, 10⟩, ⟨0, 10⟩]
    outputRect := [⟨0, 0⟩, ⟨1920, 0⟩, ⟨1920, 1080⟩, ⟨0, 1080⟩] }

/-- C8 witness input: a 10x10 quad. -/
def c8Slice : RawSlice :=
  { uniqueId := some "R", params := []
    outputRect := some [vtx 0 0, vtx 10 0, vtx 10 10, vtx 0 10]
    inputRect := none }

/-- C8 witness input: the same quad with its first two vertices swapped. -/
def c8SliceSwapped : RawSlice :=
  { uniqueId := some "R2", params := []
    outputRect := some [vtx 10 0, vtx 0 0, vtx 10 10, vtx 0 10]
    inputRect := none }

/-- The record parseSlice returns for c8Slice at scale 1. -/
def c8Emitted : SliceData :=
  { id := "R", name := "Unnamed Slice"
    width := JSNum.fin 10, height := JSNum.fin 10
    x := JSNum.fin 0, y := JSNum.fin 0
    inputRect := []
    outputRect := [⟨0, 0⟩, ⟨10, 0⟩, ⟨10, 10⟩, ⟨0, 10⟩] }

/-- The record parseSlice returns for c8SliceSwapped at scale 1. -/
def c8EmittedSwapped : SliceData :=
  { id := "R2", name := "Unnamed Slice"
    width := JSNum.fin 10, height := JSNum.fin 10
    x := JSNum.fin 0, y := JSNum.fin 0
    inputRect := []
    outputRect := [⟨10, 0⟩, ⟨0, 0⟩, ⟨10, 10⟩, ⟨0, 10⟩] }

/-- C9 witness input: one slice valid in both views. -/
def c9Slice : RawSlice :=
  { uniqueId := some "V", params := []
    outputRect := some [vtx 0 0, vtx 1920 0, vtx 1920 1080, vtx 0 1080]
    inputRect := some [vtx 0 0, vtx 10 0, vtx 10 10, vtx 0 10] }

/-! ## Helper lemmas about the fold-based minima and maxima -/

theorem foldl_max_init_le (l : List ℚ) (a : ℚ) : a ≤ l.foldl max a := by
  induction l generalizing a with
  | nil => exact le_refl a
  | cons b t ih =>
    simp only [List.foldl_cons]
    exact le_trans (le_max_left a b) (ih (max a b))

theorem foldl_max_le_of_mem (l : List ℚ) (a x : ℚ) (hx : x ∈ l) :
    x ≤ l.foldl max a := by
  induction l generalizing a with
  | nil => cases hx
  | cons b t ih =>
    simp only [List.foldl_cons]
    rcases List.mem_cons.mp hx with h | h
    · subst h
      exact le_trans (le_max_right a x) (foldl_max_init_le t (max a x))
    · exact ih (max a b) h

theorem foldl_max_cases (l : List ℚ) (a : ℚ) :
    l.foldl max a = a ∨ l.foldl max a ∈ l := by
  induction l generalizing a with
  | nil => exact Or.inl rfl
  | cons b t ih =>
    simp only [List.foldl_cons]
    rcases ih (max a b) with h | h
    · rcases max_choice a b with hab | hab
      · exact Or.inl (by rw [h, hab])
      · exact Or.inr (by rw [h, hab]; exact List.mem_cons_self b t)
    · exact Or.inr (List.mem_cons_of_mem b h)

theorem foldl_min_le_init (l : List ℚ) (a : ℚ) : l.foldl min a ≤ a := by
  induction l generalizing a with
  | nil => exact le_refl a
  | cons b t ih =>
    simp only [List.foldl_cons]
    exact le_trans (ih (min a b)) (min_le_left a b)

theorem foldl_min_le_of_mem (l : List ℚ) (a x : ℚ) (hx : x ∈ l) :
    l.foldl min a ≤ x := by
  induction l generalizing a with
  | nil => cases hx
  | cons b t ih =>
    simp only [List.foldl_cons]
    rcases List.mem_cons.mp hx with h | h
    · subst h
      exact le_trans (foldl_min_le_init t (min a x)) (min_le_right a x)
    · exact ih (min a b) h

theorem foldl_min_cases (l : List ℚ) (a : ℚ) :
    l.foldl min a = a ∨ l.foldl min a ∈ l := by
  induction l generalizing a with
  | nil => exact Or.inl rfl
  | cons b t ih =>
    simp only [List.foldl_cons]
    rcases ih (min a b) with h | h
    · rcases min_choice a b with hab | hab
      · exact Or.inl (by rw [h, hab])
      · exact Or.inr (by rw [h, hab]; exact List.mem_cons_self b t)
    · exact Or.inr (List.mem_cons_of_mem b h)

theorem listMin_le_of_mem (l : List ℚ) (x : ℚ) (hx : x ∈ l) : listMin l ≤ x := by
  cases l with
  | nil => cases hx
  | cons a t =>
    rcases List.mem_cons.mp hx with h | h
    · subst h
      exact foldl_min_le_init t x
    · exact foldl_min_le_of_mem t a x h

theorem le_listMax_of_mem (l : List ℚ) (x : ℚ) (hx : x ∈ l) : x ≤ listMax l := by
  cases l with
  | nil => cases hx
  | cons a t =>
    rcases List.mem_cons.mp hx with h | h
    · subst h
      exact foldl_max_init_le t x
    · exact foldl_max_le_of_mem t a x h

theorem listMin_mem (l : List ℚ) (h : l ≠ []) : listMin l ∈ l := by
  cases l with
  | nil => exact absurd rfl h
  | cons a t =>
    show t.foldl min a ∈ a :: t
    rcases foldl_min_cases t a with h' | h'
    · rw [h']
      exact List.mem_cons_self a t
    · exact List.mem_cons_of_mem a h'

theorem listMax_mem (l : List ℚ) (h : l ≠ []) : listMax l ∈ l := by
  cases l with
  | nil => exact absurd rfl h
  | cons a t =>
    show t.foldl max a ∈ a :: t
    rcases foldl_max_cases t a with h' | h'
    · rw [h']
      exact List.mem_cons_self a t
    · exact List.mem_cons_of_mem a h'

theorem listMin_perm (l l' : List ℚ) (h : l.Perm l') : listMin l = listMin l' := by
  cases l with
  | nil =>
    have h' : l' = [] := List.Perm.eq_nil h.symm
    rw [h']
  | cons a t =>
    have hne : l' ≠ [] := by
      intro he
      subst he
      simpa using h.eq_nil
    have h1 : listMin (a :: t) ≤ listMin l' :=
      listMin_le_of_mem _ _ (h.mem_iff.mpr (listMin_mem l' hne))
    have h2 : listMin l' ≤ listMin (a :: t) :=
      listMin_le_of_mem _ _ (h.mem_iff.mp (listMin_mem (a :: t) (by simp)))
    exact le_antisymm h1 h2

theorem listMax_perm (l l' : List ℚ) (h : l.Perm l') : listMax l = listMax l' := by
  cases l with
  | nil =>
    have h' : l' = [] := List.Perm.eq_nil h.symm
    rw [h']
  | cons a t =>
    have hne : l' ≠ [] := by
      intro he
      subst he
      simpa using h.eq_nil
    have h1 : listMax (a :: t) ≤ listMax l' :=
      le_listMax_of_mem _ _ (h.mem_iff.mp (listMax_mem (a :: t) (by simp)))
    have h2 : listMax l' ≤ listMax (a :: t) :=
      le_listMax_of_mem _ _ (h.mem_iff.mpr (listMax_mem l' hne))
    exact le_antisymm h1 h2

/-- A rounded value that passed the positivity guard is never a negative
finite number: if it is finite at all, it is nonnegative. -/
theorem jsRound_fin_nonneg (w : JSNum) (hw : jsLe w 0 = false) :
    ∀ q : ℚ, jsRound w = JSNum.fin q → 0 ≤ q := by
  intro q hq
  cases w with
  | fin r =>
    simp only [jsLe, decide_eq_false_iff_not, not_le] at hw
    simp only [jsRound, JSNum.fin.injEq] at hq
    rw [← hq]
    have h0 : (0 : ℤ) ≤ ⌊r + 1/2⌋ := Int.floor_nonneg.mpr (by linarith)
    exact_mod_cast h0
  | inf p => simp [jsRound] at hq
  | nan => simp [jsRound] at hq

/-! ## Inversion of parseSlice and structural lemmas about parse -/

/-- Everything that holds of a slice record parseSlice emits: the active
rect passed the length check, the scaled width and height passed the
positivity guard, and the record fields are exactly the rounded scaled
bounding box of the active rect together with the two parsed rects. -/
theorem parseSlice_inv (r : RawSlice) (m : ViewMode) (sx sy : JSNum) (eid : String)
    (s : SliceData) (h : parseSlice r m sx sy eid = some s) :
    4 ≤ (activeRectOf r m).length ∧
    jsLe (jsMulF (listMax ((activeRectOf r m).map Pt.x) - listMin ((activeRectOf r m).map Pt.x)) sx) 0 = false ∧
    jsLe (jsMulF (listMax ((activeRectOf r m).map Pt.y) - listMin ((activeRectOf r m).map Pt.y)) sy) 0 = false ∧
    s = { id := sliceIdOf r eid
          name := sliceNameOf r
          width := jsRound (jsMulF (listMax ((activeRectOf r m).map Pt.x) - listMin ((activeRectOf r m).map Pt.x)) sx)
          height := jsRound (jsMulF (listMax ((activeRectOf r m).map Pt.y) - listMin ((activeRectOf r m).map Pt.y)) sy)
          x := jsRound (jsMulF (listMin ((activeRectOf r m).map Pt.x)) sx)
          y := jsRound (jsMulF (listMin ((activeRectOf r m).map Pt.y)) sy)
          inputRect := parseRect r.inputRect
          outputRect := parseRect r.outputRect } := by
  simp only [parseSlice] at h
  simp only [activeRectOf]
  set A := if m = ViewMode.input then parseRect r.inputRect else parseRect r.outputRect with hA
  split at h
  · exact absurd h (by simp)
  · next hlen =>
    split at h
    · exact absurd h (by simp)
    · next hguard =>
      have hor := Bool.or_eq_false_iff.mp (eq_false_of_ne_true hguard)
      refine ⟨Nat.le_of_not_lt hlen, hor.1, hor.2, ?_⟩
      exact (Option.some.inj h).symm

/-- A document that reaches the slice array also yields a scale pair. -/
theorem docScale_of_sliceArray (d : RawDoc) (sa : List RawSlice)
    (hsa : docSliceArray d = some sa) :
    ∃ cs : ℚ × ℚ, docScale d = some (scaleOf cs (internalResolutionOf sa)) := by
  obtain ⟨oxs⟩ := d
  rcases oxs with _ | xs
  · exact absurd hsa (by simp [docSliceArray])
  obtain ⟨nm, vi, oss⟩ := xs
  rcases oss with _ | ss
  · exact absurd hsa (by simp [docSliceArray])
  obtain ⟨oscreen, octs⟩ := ss
  rcases oscreen with _ | screen
  · exact absurd hsa (by simp [docSliceArray])
  obtain ⟨odv, olayers⟩ := screen
  rcases olayers with _ | sa'
  · exact absurd hsa (by simp [docSliceArray])
  have hsa' : sa' = sa := by simpa [docSliceArray] using hsa
  subst hsa'
  exact ⟨compositionSizeOf ⟨some ⟨odv, some sa'⟩, octs⟩ ⟨odv, some sa'⟩, rfl⟩

/-- When the structural checks pass and a slice array is present, parse
succeeds and its slice list is the filterMap of parseSlice over the
enumerated slice array, with the scale pair of the document. -/
theorem parse_of_sliceArray (d : RawDoc) (m : ViewMode) (e : Nat → String)
    (sa : List RawSlice) (sc : JSNum × JSNum)
    (hsa : docSliceArray d = some sa) (hsc : docScale d = some sc) :
    ∃ st, parse (some d) m e = some st ∧
      st.slices = sa.enum.filterMap (fun p => parseSlice p.2 m sc.1 sc.2 (e p.1)) := by
  obtain ⟨oxs⟩ := d
  rcases oxs with _ | xs
  · exact absurd hsa (by simp [docSliceArray])
  obtain ⟨nm, vi, oss⟩ := xs
  rcases oss with _ | ss
  · exact absurd hsa (by simp [docSliceArray])
  obtain ⟨oscreen, octs⟩ := ss
  rcases oscreen with _ | screen
  · exact absurd hsa (by simp [docSliceArray])
  obtain ⟨odv, olayers⟩ := screen
  rcases olayers with _ | sa'
  · exact absurd hsa (by simp [docSliceArray])
  have hsa' : sa' = sa := by simpa [docSliceArray] using hsa
  subst hsa'
  have hsc' : scaleOf (compositionSizeOf ⟨some ⟨odv, some sa'⟩, octs⟩ ⟨odv, some sa'⟩)
      (internalResolutionOf sa') = sc := by
    simpa [docScale] using hsc
  refine ⟨{ name := jsOrStr nm "Resolume Setup"
            version := versionOf vi
            compositionSize := compositionSizeOf ⟨some ⟨odv, some sa'⟩, octs⟩ ⟨odv, some sa'⟩
            slices := sa'.enum.filterMap (fun p =>
              parseSlice p.2 m
                (scaleOf (compositionSizeOf ⟨some ⟨odv, some sa'⟩, octs⟩ ⟨odv, some sa'⟩)
                  (internalResolutionOf sa')).1
                (scaleOf (compositionSizeOf ⟨some ⟨odv, some sa'⟩, octs⟩ ⟨odv, some sa'⟩)
                  (internalResolutionOf sa')).2
                (e p.1)) }, rfl, ?_⟩
  simp only
  rw [hsc']

/-- When the structural checks pass but no slice array is present, a
successful parse carries no slices. -/
theorem parse_slices_nil (d : RawDoc) (m : ViewMode) (e : Nat → String)
    (st : ResolumeSetup) (hsa : docSliceArray d = none)
    (hp : parse (some d) m e = some st) : st.slices = [] := by
  obtain ⟨oxs⟩ := d
  rcases oxs with _ | xs
  · exact absurd hp (by simp [parse])
  obtain ⟨nm, vi, oss⟩ := xs
  rcases oss with _ | ss
  · exact absurd hp (by simp [parse])
  obtain ⟨oscreen, octs⟩ := ss
  rcases oscreen with _ | screen
  · exact absurd hp (by simp [parse])
  obtain ⟨odv, olayers⟩ := screen
  rcases olayers with _ | sa'
  · have hst := Option.some.inj hp
    rw [← hst]
  · exact absurd hsa (by simp [docSliceArray])

/-- Every slice of a successful parse is the parseSlice image of some raw
slice under the scale pair of the document. -/
theorem mem_parse_slices (d : RawDoc) (m : ViewMode) (e : Nat → String)
    (st : ResolumeSetup) (s : SliceData)
    (hp : parse (some d) m e = some st) (hs : s ∈ st.slices) :
    ∃ sc, docScale d = some sc ∧ ∃ r eid, parseSlice r m sc.1 sc.2 eid = some s := by
  rcases hsa : docSliceArray d with _ | sa
  · rw [parse_slices_nil d m e st hsa hp] at hs
    cases hs
  · obtain ⟨cs, hsc⟩ := docScale_of_sliceArray d sa hsa
    obtain ⟨st', hp', hsl⟩ := parse_of_sliceArray d m e sa _ hsa hsc
    rw [hp] at hp'
    rw [Option.some.inj hp', hsl] at hs
    obtain ⟨p, hpmem, hps⟩ := List.mem_filterMap.mp hs
    exact ⟨_, hsc, p.2, e p.1, hps⟩

/-! ## Entropy congruence (for C4) -/

/-- parseSlice does not look at the entropy value when the raw slice has a
truthy uniqueId attribute. -/
theorem parseSlice_entropy_congr (r : RawSlice) (m : ViewMode) (sx sy : JSNum)
    (e1 e2 : String) (hu : ∃ u, r.uniqueId = some u ∧ u ≠ "") :
    parseSlice r m sx sy e1 = parseSlice r m sx sy e2 := by
  obtain ⟨u, hu, hne⟩ := hu
  simp [parseSlice, sliceIdOf, hu, hne]

theorem slices_entropy_congr (sa : List RawSlice) (m : ViewMode) (sx sy : JSNum)
    (e1 e2 : Nat → String) (n : Nat)
    (h : ∀ r ∈ sa, ∃ u, r.uniqueId = some u ∧ u ≠ "") :
    (sa.enumFrom n).filterMap (fun p => parseSlice p.2 m sx sy (e1 p.1)) =
      (sa.enumFrom n).filterMap (fun p => parseSlice p.2 m sx sy (e2 p.1)) := by
  induction sa generalizing n with
  | nil => rfl
  | cons r t ih =>
    simp only [List.enumFrom, List.filterMap_cons]
    rw [parseSlice_entropy_congr r m sx sy (e1 n) (e2 n) (h r (List.mem_cons_self r t)),
      ih (n + 1) (fun r' hr' => h r' (List.mem_cons_of_mem r hr'))]

/-! ## Characterisation of the inferred internal resolution (for C2) -/

theorem pair_foldl_max_split (pts : List Pt) (p : ℚ × ℚ) :
    pts.foldl (fun a v => (max a.1 v.x, max a.2 v.y)) p =
      ((pts.map Pt.x).foldl max p.1, (pts.map Pt.y).foldl max p.2) := by
  induction pts generalizing p with
  | nil => rfl
  | cons v t ih =>
    simp only [List.foldl_cons, List.map_cons]
    exact ih (max p.1 v.x, max p.2 v.y)

theorem internalResolutionOf_split (sa : List RawSlice) :
    internalResolutionOf sa =
      (sa.foldl (fun a s => (outputXs s).foldl max a) 0,
       sa.foldl (fun a s => (outputYs s).foldl max a) 0) := by
  suffices hgen : ∀ p : ℚ × ℚ,
      sa.foldl (fun acc s => (parseRect s.outputRect).foldl
        (fun a v => (max a.1 v.x, max a.2 v.y)) acc) p =
      (sa.foldl (fun a s => (outputXs s).foldl max a) p.1,
       sa.foldl (fun a s => (outputYs s).foldl max a) p.2) by
    exact hgen (0, 0)
  induction sa with
  | nil => intro p; rfl
  | cons s t ih =>
    intro p
    simp only [List.foldl_cons]
    rw [pair_foldl_max_split]
    exact ih _

theorem nested_foldl_max_init_le (sa : List RawSlice) (a : ℚ)
    (f : RawSlice → List ℚ) : a ≤ sa.foldl (fun b s => (f s).foldl max b) a := by
  induction sa generalizing a with
  | nil => exact le_refl a
  | cons s t ih =>
    simp only [List.foldl_cons]
    exact le_trans (foldl_max_init_le (f s) a) (ih _)

theorem nested_foldl_max_le_of_mem (sa : List RawSlice) (a : ℚ)
    (f : RawSlice → List ℚ) (s : RawSlice) (hs : s ∈ sa) (x : ℚ) (hx : x ∈ f s) :
    x ≤ sa.foldl (fun b s => (f s).foldl max b) a := by
  induction sa generalizing a with
  | nil => cases hs
  | cons s' t ih =>
    simp only [List.foldl_cons]
    rcases List.mem_cons.mp hs with h | h
    · subst h
      exact le_trans (foldl_max_le_of_mem (f s) a x hx)
        (nested_foldl_max_init_le t _ f)
    · exact ih _ h

theorem nested_foldl_max_cases (sa : List RawSlice) (a : ℚ)
    (f : RawSlice → List ℚ) :
    sa.foldl (fun b s => (f s).foldl max b) a = a ∨
      ∃ s ∈ sa, sa.foldl (fun b s => (f s).foldl max b) a ∈ f s := by
  induction sa generalizing a with
  | nil => exact Or.inl rfl
  | cons s t ih =>
    simp only [List.foldl_cons]
    rcases ih ((f s).foldl max a) with h | ⟨s', hs', hmem⟩
    · rcases foldl_max_cases (f s) a with h2 | h2
      · exact Or.inl (h.trans h2)
      · exact Or.inr ⟨s, List.mem_cons_self s t, by rw [h]; exact h2⟩
    · exact Or.inr ⟨s', List.mem_cons_of_mem s hs', hmem⟩

/-! ## The claims -/

/-- C1: the code at the failing input.  For a descriptor whose inferred
internal resolution is 0x0, the scale computation at lines 98-99 divides
by zero with no guard: the scale factors are +Infinity rather than the
claimed identity 1.0, and the returned composition contains a slice whose
width and height are +Infinity and whose x and y are NaN (0 times
Infinity), so downstream consumers do receive non-finite numbers. -/
theorem c1_code_eval :
    internalResolutionOf [c1Slice] = (0, 0) ∧
    scaleOf (1920, 1080) (internalResolutionOf [c1Slice]) =
      (JSNum.inf true, JSNum.inf true) ∧
    parse (some (mkDoc [c1Slice])) ViewMode.input (fun _ => "e") = some c1Setup ∧
    (JSNum.inf true).isFinite = false ∧ JSNum.nan.isFinite = false ∧
    JSNum.inf true ≠ JSNum.fin 1 :=
  ⟨rfl, rfl, by with_unfolding_all rfl, rfl, rfl, by decide⟩

/-- C2 counterexample: the implemented inference runs before validation and
over every slice.  Here the only valid slice spans 10x10, so the claimed
inference gives (10, 10), but the single stray vertex (100, 50) of the
invalid slice (which parse indeed drops: only slice A is emitted) drives
the implemented inference to (100, 50). -/
theorem c2_counterexample :
    internalResolutionOf [c2SliceA, c2SliceB] = (100, 50) ∧
    specInternalResolution [c2SliceA, c2SliceB] = (10, 10) ∧
    ((100 : ℚ), (50 : ℚ)) ≠ ((10 : ℚ), (10 : ℚ)) ∧
    (parse (some (mkDoc [c2SliceA, c2SliceB])) ViewMode.output (fun _ => "e")).map
        (fun st => st.slices.map SliceData.id) = some ["A"] :=
  ⟨rfl, rfl, by decide, by with_unfolding_all rfl⟩

/-- C2 amended: the inferred internal resolution is the componentwise
maximum, started at 0, of the output-rect vertex coordinates of every
slice, valid or not: each component bounds every output vertex coordinate
from above, is at least 0, and is attained by some output vertex of some
slice unless it is the 0 start value.  It is always read from the output
rects (view-mode independence is claim C9). -/
theorem c2_amended (sa : List RawSlice) :
    0 ≤ (internalResolutionOf sa).1 ∧ 0 ≤ (internalResolutionOf sa).2 ∧
    (∀ s ∈ sa, ∀ x ∈ outputXs s, x ≤ (internalResolutionOf sa).1) ∧
    (∀ s ∈ sa, ∀ y ∈ outputYs s, y ≤ (internalResolutionOf sa).2) ∧
    ((internalResolutionOf sa).1 = 0 ∨
      ∃ s ∈ sa, (internalResolutionOf sa).1 ∈ outputXs s) ∧
    ((internalResolutionOf sa).2 = 0 ∨
      ∃ s ∈ sa, (internalResolutionOf sa).2 ∈ outputYs s) := by
  rw [internalResolutionOf_split]
  exact ⟨nested_foldl_max_init_le sa 0 outputXs,
    nested_foldl_max_init_le sa 0 outputYs,
    fun s hs x hx => nested_foldl_max_le_of_mem sa 0 outputXs s hs x hx,
    fun s hs y hy => nested_foldl_max_le_of_mem sa 0 outputYs s hs y hy,
    nested_foldl_max_cases sa 0 outputXs,
    nested_foldl_max_cases sa 0 outputYs⟩

/-- C3 counterexample: a slice whose scaled width and height are 0.4 passes
the pre-rounding positivity check of line 199 and is emitted with rounded
width 0 and height 0, contradicting both the claimed invariant and the
claimed drop. -/
theorem c3_counterexample :
    parse (some (mkDoc [anchorSlice, c3SliceB])) ViewMode.output (fun _ => "e") =
      some c3Setup ∧
    c3EmittedB ∈ c3Setup.slices ∧
    c3EmittedB.width = JSNum.fin 0 ∧ c3EmittedB.height = JSNum.fin 0 :=
  ⟨by with_unfolding_all rfl, by exact List.mem_cons_of_mem _ (List.mem_cons_self _ _), rfl, rfl⟩

/-- C3 amended: the positivity check runs on the scaled values before
rounding: every emitted slice stores the roundings of scaled width and
height values that did not compare `<= 0`; hence a finite emitted width or
height is never negative, but it can be 0 when the scaled value rounds
down to 0. -/
theorem c3_amended (d : RawDoc) (m : ViewMode) (e : Nat → String)
    (st : ResolumeSetup) (s : SliceData)
    (hp : parse (some d) m e = some st) (hs : s ∈ st.slices) :
    ∃ w h : JSNum, jsLe w 0 = false ∧ jsLe h 0 = false ∧
      s.width = jsRound w ∧ s.height = jsRound h ∧
      (∀ q : ℚ, s.width = JSNum.fin q → 0 ≤ q) ∧
      (∀ q : ℚ, s.height = JSNum.fin q → 0 ≤ q) := by
  obtain ⟨sc, hsc, r, eid, hps⟩ := mem_parse_slices d m e st s hp hs
  obtain ⟨hlen, hw, hh, hrec⟩ := parseSlice_inv r m sc.1 sc.2 eid s hps
  subst hrec
  exact ⟨_, _, hw, hh, rfl, rfl, jsRound_fin_nonneg _ hw, jsRound_fin_nonneg _ hh⟩

/-- Witness for c3_amended at the C3 document and its degenerate slice. -/
theorem c3_amended_witness :
    ∃ w h : JSNum, jsLe w 0 = false ∧ jsLe h 0 = false ∧
      c3EmittedB.width = jsRound w ∧ c3EmittedB.height = jsRound h ∧
      (∀ q : ℚ, c3EmittedB.width = JSNum.fin q → 0 ≤ q) ∧
      (∀ q : ℚ, c3EmittedB.height = JSNum.fin q → 0 ≤ q) :=
  c3_amended (mkDoc [anchorSlice, c3SliceB]) ViewMode.output (fun _ => "e")
    c3Setup c3EmittedB (by with_unfolding_all rfl) (by exact List.mem_cons_of_mem _ (List.mem_cons_self _ _))

/-- C4 counterexample: for a region without a uniqueId attribute two runs
on the identical (descriptor, view mode) input differ, because line 140
builds the fallback id from Date.now() and Math.random() (the entropy
argument of the model). -/
theorem c4_counterexample :
    parse (some (mkDoc [c4Slice])) ViewMode.output (fun _ => "1") ≠
      parse (some (mkDoc [c4Slice])) ViewMode.output (fun _ => "2") := by
  have h1 : parse (some (mkDoc [c4Slice])) ViewMode.output (fun _ => "1") =
      some (c4Setup "1") := by with_unfolding_all rfl
  have h2 : parse (some (mkDoc [c4Slice])) ViewMode.output (fun _ => "2") =
      some (c4Setup "2") := by with_unfolding_all rfl
  rw [h1, h2]
  intro hcontra
  have hid := congrArg (fun o => (Option.map (fun st => st.slices.map SliceData.id) o)) hcontra
  simp only [Option.map, c4Setup, List.map] at hid
  exact absurd hid (by decide)

/-- C4 amended: resolution is a deterministic function of (descriptor,
view mode) whenever every region carries a truthy uniqueId; only the
fallback id of line 140 consults the clock and the random generator, so
descriptors with a region lacking uniqueId can differ between runs in
that id (and only there). -/
theorem c4_amended (d : RawDoc) (m : ViewMode) (e1 e2 : Nat → String)
    (h : ∀ sa, docSliceArray d = some sa →
      ∀ r ∈ sa, ∃ u, r.uniqueId = some u ∧ u ≠ "") :
    parse (some d) m e1 = parse (some d) m e2 := by
  obtain ⟨oxs⟩ := d
  rcases oxs with _ | xs
  · rfl
  obtain ⟨nm, vi, oss⟩ := xs
  rcases oss with _ | ss
  · rfl
  obtain ⟨oscreen, octs⟩ := ss
  rcases oscreen with _ | screen
  · rfl
  obtain ⟨odv, olayers⟩ := screen
  rcases olayers with _ | sa
  · rfl
  have hids := h sa (by simp [docSliceArray])
  simp only [parse, List.enum]
  rw [slices_entropy_congr sa m _ _ e1 e2 0 hids]

/-- Witness for c4_amended: with uniqueId present, the two entropies of
c4_counterexample give identical results. -/
theorem c4_amended_witness :
    parse (some (mkDoc [c4GoodSlice])) ViewMode.output (fun _ => "1") =
      parse (some (mkDoc [c4GoodSlice])) ViewMode.output (fun _ => "2") :=
  c4_amended (mkDoc [c4GoodSlice]) ViewMode.output (fun _ => "1") (fun _ => "2")
    (by
      intro sa hsa r hr
      have heq : docSliceArray (mkDoc [c4GoodSlice]) = some [c4GoodSlice] := rfl
      rw [heq] at hsa
      rw [← Option.some.inj hsa] at hr
      rcases List.mem_cons.mp hr with h | h
      · subst h
        exact ⟨"G", rfl, by decide⟩
      · cases h)

/-- C5 counterexample: an output quad listing five vertices passes the
`< 4` check of line 172 and is emitted, so a slice with more than 4
vertices in the active view does appear in the output list. -/
theorem c5_counterexample :
    parse (some (mkDoc [c5Slice])) ViewMode.output (fun _ => "e") = some c5Setup ∧
    c5Emitted ∈ c5Setup.slices ∧
    (emittedActiveRect c5Emitted ViewMode.output).length = 5 :=
  ⟨by with_unfolding_all rfl, by exact List.mem_cons_self _ _, rfl⟩

/-- C5 amended: a slice is emitted only if its active-view rect has at
least 4 points (a quad listing more than 4 vertices is accepted, all its
points entering the bounding box); a slice with fewer than 4 vertices in
the active view never appears. -/
theorem c5_amended (d : RawDoc) (m : ViewMode) (e : Nat → String)
    (st : ResolumeSetup) (s : SliceData)
    (hp : parse (some d) m e = some st) (hs : s ∈ st.slices) :
    4 ≤ (emittedActiveRect s m).length := by
  obtain ⟨sc, hsc, r, eid, hps⟩ := mem_parse_slices d m e st s hp hs
  obtain ⟨hlen, hw, hh, hrec⟩ := parseSlice_inv r m sc.1 sc.2 eid s hps
  subst hrec
  cases m with
  | input => exact hlen
  | output => exact hlen

/-- Witness for c5_amended at the C5 document and its emitted slice. -/
theorem c5_amended_witness : 4 ≤ (emittedActiveRect c5Emitted ViewMode.output).length :=
  c5_amended (mkDoc [c5Slice]) ViewMode.output (fun _ => "e") c5Setup c5Emitted
    (by with_unfolding_all rfl) (by exact List.mem_cons_self _ _)

/-- C6 counterexample: rounding is JavaScript Math.round (half-up): at
scale 1 the slice whose minimal vertex x is -1.5 is emitted with
x = -1, while rounding half away from zero would give -2. -/
theorem c6_counterexample :
    parse (some (mkDoc [anchorSlice, c6SliceB])) ViewMode.output (fun _ => "e") =
      some c6Setup ∧
    c6EmittedB ∈ c6Setup.slices ∧
    docScale (mkDoc [anchorSlice, c6SliceB]) = some (JSNum.fin 1, JSNum.fin 1) ∧
    listMin ((emittedActiveRect c6EmittedB ViewMode.output).map Pt.x) = -3/2 ∧
    c6EmittedB.x = JSNum.fin (-1) ∧
    specRoundHalfAwayFromZero (-3/2) = -2 ∧
    ((-1 : ℚ)) ≠ ((-2 : ℤ) : ℚ) :=
  ⟨by with_unfolding_all rfl,
   by exact List.mem_cons_of_mem _ (List.mem_cons_self _ _),
   by with_unfolding_all rfl,
   by with_unfolding_all rfl, rfl,
   by with_unfolding_all rfl,
   by norm_num⟩

/-- C6 amended: every emitted box is x = round(minX*scaleX),
y = round(minY*scaleY), width = round((maxX-minX)*scaleX),
height = round((maxY-minY)*scaleY) with one fixed rounding function for
all four components, but that function is JavaScript Math.round, i.e.
floor(v + 1/2) (half-up), which only agrees with half-away-from-zero on
nonnegative values. -/
theorem c6_amended (d : RawDoc) (m : ViewMode) (e : Nat → String)
    (st : ResolumeSetup) (s : SliceData)
    (hp : parse (some d) m e = some st) (hs : s ∈ st.slices) :
    (∃ sc, docScale d = some sc ∧
      s.x = jsRound (jsMulF (listMin ((emittedActiveRect s m).map Pt.x)) sc.1) ∧
      s.y = jsRound (jsMulF (listMin ((emittedActiveRect s m).map Pt.y)) sc.2) ∧
      s.width = jsRound (jsMulF (listMax ((emittedActiveRect s m).map Pt.x) -
        listMin ((emittedActiveRect s m).map Pt.x)) sc.1) ∧
      s.height = jsRound (jsMulF (listMax ((emittedActiveRect s m).map Pt.y) -
        listMin ((emittedActiveRect s m).map Pt.y)) sc.2)) ∧
    (∀ q : ℚ, jsRound (JSNum.fin q) = JSNum.fin ((⌊q + 1/2⌋ : ℤ) : ℚ)) := by
  obtain ⟨sc, hsc, r, eid, hps⟩ := mem_parse_slices d m e st s hp hs
  obtain ⟨hlen, hw, hh, hrec⟩ := parseSlice_inv r m sc.1 sc.2 eid s hps
  subst hrec
  refine ⟨⟨sc, hsc, ?_, ?_, ?_, ?_⟩, fun q => rfl⟩ <;> cases m <;> rfl

/-- Witness for c6_amended at the C6 document and its emitted slice. -/
theorem c6_amended_witness :
    (∃ sc, docScale (mkDoc [anchorSlice, c6SliceB]) = some sc ∧
      c6EmittedB.x = jsRound (jsMulF (listMin
        ((emittedActiveRect c6EmittedB ViewMode.output).map Pt.x)) sc.1) ∧
      c6EmittedB.y = jsRound (jsMulF (listMin
        ((emittedActiveRect c6EmittedB ViewMode.output).map Pt.y)) sc.2) ∧
      c6EmittedB.width = jsRound (jsMulF
        (listMax ((emittedActiveRect c6EmittedB ViewMode.output).map Pt.x) -
          listMin ((emittedActiveRect c6EmittedB ViewMode.output).map Pt.x)) sc.1) ∧
      c6EmittedB.height = jsRound (jsMulF
        (listMax ((emittedActiveRect c6EmittedB ViewMode.output).map Pt.y) -
          listMin ((emittedActiveRect c6EmittedB ViewMode.output).map Pt.y)) sc.2)) ∧
    (∀ q : ℚ, jsRound (JSNum.fin q) = JSNum.fin ((⌊q + 1/2⌋ : ℤ) : ℚ)) :=
  c6_amended (mkDoc [anchorSlice, c6SliceB]) ViewMode.output (fun _ => "e")
    c6Setup c6EmittedB (by with_unfolding_all rfl)
    (by exact List.mem_cons_of_mem _ (List.mem_cons_self _ _))

/-- C7 counterexample: the failing slice is dropped but not as if absent:
its output rect still feeds the inference, so the surviving sibling is
emitted with width 5 when the failing slice is present and width 10 when
it is removed from the descriptor. -/
theorem c7_counterexample :
    parse (some (mkDoc [c7SliceA, c7SliceB])) ViewMode.input (fun _ => "e") = some
      { name := "t", version := defaultVersion, compositionSize := (1920, 1080)
        slices := [c7EmittedWithB] } ∧
    parse (some (mkDoc [c7SliceA])) ViewMode.input (fun _ => "e") = some
      { name := "t", version := defaultVersion, compositionSize := (1920, 1080)
        slices := [c7EmittedAlone] } ∧
    c7EmittedWithB.id = c7EmittedAlone.id ∧
    c7EmittedWithB.width ≠ c7EmittedAlone.width :=
  ⟨by with_unfolding_all rfl, by with_unfolding_all rfl, rfl, by decide⟩

/-- C7 amended: the run never aborts and failures stay per-slice: with the
document scale pair fixed, the output is exactly the filterMap of
parseSlice over the enumerated slice array, so every slice that
individually parses appears and a failing slice is simply absent (not
replaced); but the shared scale is computed from the output rects of all
slices, failing ones included, so siblings need not match a run with the
failing slice removed (c7_counterexample). -/
theorem c7_amended (d : RawDoc) (m : ViewMode) (e : Nat → String)
    (sa : List RawSlice) (sc : JSNum × JSNum)
    (hsa : docSliceArray d = some sa) (hsc : docScale d = some sc) :
    ∃ st, parse (some d) m e = some st ∧
      st.slices = sa.enum.filterMap (fun p => parseSlice p.2 m sc.1 sc.2 (e p.1)) ∧
      ∀ p ∈ sa.enum, ∀ s, parseSlice p.2 m sc.1 sc.2 (e p.1) = some s →
        s ∈ st.slices := by
  obtain ⟨st, hp, hsl⟩ := parse_of_sliceArray d m e sa sc hsa hsc
  refine ⟨st, hp, hsl, ?_⟩
  intro p hpmem s hps
  rw [hsl]
  exact List.mem_filterMap.mpr ⟨p, hpmem, hps⟩

/-- Witness for c7_amended at the C7 document. -/
theorem c7_amended_witness :
    ∃ st, parse (some (mkDoc [c7SliceA, c7SliceB])) ViewMode.input (fun _ => "e") =
        some st ∧
      st.slices = [c7SliceA, c7SliceB].enum.filterMap (fun p =>
        parseSlice p.2 ViewMode.input (JSNum.fin (1/2), JSNum.fin 1).1
          (JSNum.fin (1/2), JSNum.fin 1).2 "e") ∧
      ∀ p ∈ [c7SliceA, c7SliceB].enum, ∀ s,
        parseSlice p.2 ViewMode.input (JSNum.fin (1/2), JSNum.fin 1).1
          (JSNum.fin (1/2), JSNum.fin 1).2 "e" = some s → s ∈ st.slices :=
  c7_amended (mkDoc [c7SliceA, c7SliceB]) ViewMode.input (fun _ => "e")
    [c7SliceA, c7SliceB] (JSNum.fin (1/2), JSNum.fin 1) rfl
    (by with_unfolding_all rfl)

/-- C8: for every quad that passes validation, the resolved pre-scaling box
is the min/max bounding box over all points of the active rect (minX and
minY bound every point from below, maxX and maxY from above), and listing
the same vertices in any other order produces a slice with identical
x, y, width and height. -/
theorem c8_bbox_order_independent (r r2 : RawSlice) (m : ViewMode)
    (sx sy : JSNum) (eid eid2 : String) (s s2 : SliceData)
    (h : parseSlice r m sx sy eid = some s)
    (h2 : parseSlice r2 m sx sy eid2 = some s2)
    (hperm : (activeRectOf r m).Perm (activeRectOf r2 m)) :
    (∀ p ∈ activeRectOf r m,
      listMin ((activeRectOf r m).map Pt.x) ≤ p.x ∧
      p.x ≤ listMax ((activeRectOf r m).map Pt.x) ∧
      listMin ((activeRectOf r m).map Pt.y) ≤ p.y ∧
      p.y ≤ listMax ((activeRectOf r m).map Pt.y)) ∧
    s.x = s2.x ∧ s.y = s2.y ∧ s.width = s2.width ∧ s.height = s2.height := by
  obtain ⟨hlen, hw, hh, hrec⟩ := parseSlice_inv r m sx sy eid s h
  obtain ⟨hlen2, hw2, hh2, hrec2⟩ := parseSlice_inv r2 m sx sy eid2 s2 h2
  subst hrec
  subst hrec2
  have hx := listMin_perm _ _ (hperm.map Pt.x)
  have hmx := listMax_perm _ _ (hperm.map Pt.x)
  have hy := listMin_perm _ _ (hperm.map Pt.y)
  have hmy := listMax_perm _ _ (hperm.map Pt.y)
  refine ⟨?_, ?_, ?_, ?_, ?_⟩
  · intro p hp
    exact ⟨listMin_le_of_mem _ _ (List.mem_map_of_mem Pt.x hp),
      le_listMax_of_mem _ _ (List.mem_map_of_mem Pt.x hp),
      listMin_le_of_mem _ _ (List.mem_map_of_mem Pt.y hp),
      le_listMax_of_mem _ _ (List.mem_map_of_mem Pt.y hp)⟩
  · show jsRound (jsMulF (listMin ((activeRectOf r m).map Pt.x)) sx) = _
    rw [hx]
  · show jsRound (jsMulF (listMin ((activeRectOf r m).map Pt.y)) sy) = _
    rw [hy]
  · show jsRound (jsMulF (listMax ((activeRectOf r m).map Pt.x) -
      listMin ((activeRectOf r m).map Pt.x)) sx) = _
    rw [hmx, hx]
  · show jsRound (jsMulF (listMax ((activeRectOf r m).map Pt.y) -
      listMin ((activeRectOf r m).map Pt.y)) sy) = _
    rw [hmy, hy]

/-- Witness for c8_bbox_order_independent: a 10x10 quad and the same quad
with its first two vertices swapped, both at scale 1. -/
theorem c8_bbox_witness :
    (∀ p ∈ activeRectOf c8Slice ViewMode.output,
      listMin ((activeRectOf c8Slice ViewMode.output).map Pt.x) ≤ p.x ∧
      p.x ≤ listMax ((activeRectOf c8Slice ViewMode.output).map Pt.x) ∧
      listMin ((activeRectOf c8Slice ViewMode.output).map Pt.y) ≤ p.y ∧
      p.y ≤ listMax ((activeRectOf c8Slice ViewMode.output).map Pt.y)) ∧
    c8Emitted.x = c8EmittedSwapped.x ∧ c8Emitted.y = c8EmittedSwapped.y ∧
    c8Emitted.width = c8EmittedSwapped.width ∧
    c8Emitted.height = c8EmittedSwapped.height :=
  c8_bbox_order_independent c8Slice c8SliceSwapped ViewMode.output
    (JSNum.fin 1) (JSNum.fin 1) "a" "b" c8Emitted c8EmittedSwapped
    (by with_unfolding_all rfl) (by with_unfolding_all rfl)
    (by exact List.Perm.swap (⟨10, 0⟩ : Pt) (⟨0, 0⟩ : Pt) ([⟨10, 10⟩, ⟨0, 10⟩] : List Pt))

/-- C9: the inference and the scale factors are one and the same function
of the document for both view modes: a single scale pair (docScale,
computed from the output rects alone; the view mode is not among its
arguments) drives the slice computation of parse in input mode and in
output mode alike. -/
theorem c9_inference_mode_independent (d : RawDoc) (e : Nat → String)
    (sa : List RawSlice) (hsa : docSliceArray d = some sa) :
    ∃ sc : JSNum × JSNum, docScale d = some sc ∧
      ∀ m : ViewMode, ∃ st, parse (some d) m e = some st ∧
        st.slices = sa.enum.filterMap
          (fun p => parseSlice p.2 m sc.1 sc.2 (e p.1)) := by
  obtain ⟨cs, hsc⟩ := docScale_of_sliceArray d sa hsa
  exact ⟨_, hsc, fun m => parse_of_sliceArray d m e sa _ hsa hsc⟩

/-- Witness for c9_inference_mode_independent at a concrete document. -/
theorem c9_witness :
    ∃ sc : JSNum × JSNum, docScale (mkDoc [c9Slice]) = some sc ∧
      ∀ m : ViewMode, ∃ st, parse (some (mkDoc [c9Slice])) m (fun _ => "e") =
          some st ∧
        st.slices = [c9Slice].enum.filterMap
          (fun p => parseSlice p.2 m sc.1 sc.2 "e") :=
  c9_inference_mode_independent (mkDoc [c9Slice]) (fun _ => "e") [c9Slice] rfl

/-- C10: parse is total at its public interface: it returns none exactly on
the structural failures (XML parse failure, missing XmlState, missing
ScreenSetup, missing Screen member), and a setup value on every other
input; in the model every exception path is an explicit value, so no
exception reaches the caller. -/
theorem c10_parse_total (doc : Option RawDoc) (m : ViewMode) (e : Nat → String) :
    parse doc m e = none ↔ structuralFailure doc = true := by
  rcases doc with _ | ⟨oxs⟩
  · simp [parse, structuralFailure]
  rcases oxs with _ | xs
  · simp [parse, structuralFailure]
  obtain ⟨nm, vi, oss⟩ := xs
  rcases oss with _ | ss
  · simp [parse, structuralFailure]
  obtain ⟨oscreen, octs⟩ := ss
  rcases oscreen with _ | screen
  · simp [parse, structuralFailure]
  obtain ⟨odv, olayers⟩ := screen
  rcases olayers with _ | sa
  · simp [parse, structuralFailure]
  · simp [parse, structuralFailure]

end RSLM
